import Mathlib

/-!
Shallow embedding of the registry scanner in `src/enum.py` and proofs about it.

The scanner's core is `scan_registry_key(root_key, key_path, search_string,
case_sensitive)`, which opens a key, tests the key name, the value names and the
stringified value data against the search string, recurses into the subkeys in
index order, closes the key, and absorbs every per-node failure.

The hierarchical store (the registry seen through `winreg`) is embedded as a
tree in which every observable failure of the store binding is explicit data:

* `openRes`: the exception `winreg.OpenKey` raises for this key, if any;
* `values`: the values `winreg.EnumValue` yields at indices 0, 1, ... before it
  first raises; `valTail` is that terminating exception (`noMoreItems` models
  the expected exhaustion signal, WinError 259);
* `children`: likewise the child names and subtrees `winreg.EnumKey` yields
  before it first raises, with terminating exception `childTail`;
* `closeExc`: the exception `winreg.CloseKey` raises, if any;
* a value's `data` field: `none` models a `None` payload, `some none` a payload
  on which `str(value_data)` raises, and `some (some s)` a payload whose
  `str` rendering is `s`.

Machine strings are Lean `String`s; Python's `str.lower` is embedded as the
locale-independent per-character mapping `toLowerStr`, and Python's substring
operator `in` as containment of character lists (`strContains`).
-/

/-- The Python exception classes the scanner's handlers distinguish.
`noMoreItems` is the `OSError` that signals enumeration exhaustion;
`permissionDenied` models `PermissionError` and `fileNotFound` models
`FileNotFoundError` (both `OSError` subclasses); `osOther` is any other
`OSError`; `nonOSError` is an `Exception` that is not an `OSError`. -/
inductive PyExc where
  | noMoreItems
  | permissionDenied
  | fileNotFound
  | osOther
  | nonOSError
deriving DecidableEq

/-- Whether the exception is caught by an `except OSError` clause. -/
def PyExc.isOSError : PyExc → Bool
  | .nonOSError => false
  | _ => true

/-- One value of a registry key, as returned by `winreg.EnumValue`: a name and
a data payload. `data = none` models a `None` payload; `data = some none`
models a payload on which `str(value_data)` raises; `data = some (some s)`
models a payload that `str` renders as `s`. The type tag returned by
`EnumValue` is unused by the scanner and omitted. -/
structure RegValue where
  name : String
  data : Option (Option String)
deriving DecidableEq

/-- The three match surfaces reported by the scanner (`src/enum.py` lines 48,
64, 70). -/
inductive MatchKind where
  | KEY_NAME
  | VALUE_NAME
  | VALUE_DATA
deriving DecidableEq

/-- One reported hit: the tuple `(full_path, match_type, match_value)` built by
`scan_registry_key`. -/
structure MatchRecord where
  path : String
  kind : MatchKind
  payload : String
deriving DecidableEq

/-- Python's substring operator: `strContains s t` embeds `t in s`. -/
def strContains (s t : String) : Bool := decide (t.data <:+: s.data)

/-- Python's `str.lower`, embedded as the per-character locale-independent
mapping. -/
def toLowerStr (s : String) : String := ⟨s.data.map Char.toLower⟩

/-- Case folding as the scanner applies it: the identity when the scan is
case-sensitive, lowercasing otherwise (`src/enum.py` lines 39, 47, 61, 67). -/
def foldCase (caseSensitive : Bool) (s : String) : String :=
  if caseSensitive then s else toLowerStr s

/-- The match test applied to every candidate string (`search_str in check`):
fold the case of both the candidate and the term, then test substring
containment. -/
def matchEval (candidate term : String) (caseSensitive : Bool) : Bool :=
  strContains (foldCase caseSensitive candidate) (foldCase caseSensitive term)

/-- Python's `str.split` on a one-character separator, over character lists:
`splitChar sep l acc` splits `l`, with `acc` the (reversed) pending segment. -/
def splitChar (sep : Char) : List Char → List Char → List (List Char)
  | [], acc => [acc.reverse]
  | c :: rest, acc =>
      if c = sep then acc.reverse :: splitChar sep rest []
      else splitChar sep rest (c :: acc)

/-- `key_path.split('\\')` from `src/enum.py` line 46. -/
def splitBackslash (s : String) : List String :=
  (splitChar '\\' s.data []).map (fun l => String.mk l)

/-- The key's own name, derived from its path (`src/enum.py` line 46):
`key_path.split('\\')[-1] if '\\' in key_path else key_path`. -/
def keyNameOf (path : String) : String :=
  if strContains path "\\" then (splitBackslash path).getLastD "" else path

/-- Child path composition (`src/enum.py` lines 86-89): `path\\name`, or just
`name` when `path` is empty. -/
def childPathOf (path name : String) : String :=
  if path = "" then name else path ++ "\\" ++ name

/-- One key of the hierarchical store, together with the behaviour the
`winreg` binding exhibits on it; see the module docstring for the reading of
each field. Children carry the name `winreg.EnumKey` reports for them. -/
inductive RegNode where
  | mk (openRes : Option PyExc) (values : List RegValue) (valTail : PyExc)
       (children : List (String × RegNode)) (childTail : PyExc)
       (closeExc : Option PyExc)

/-- The open outcome of a key. -/
def RegNode.openRes : RegNode → Option PyExc
  | .mk o _ _ _ _ _ => o

/-- The value checks for one enumerated value (`src/enum.py` lines 59-77):
test the value name, then, when the data is not `None`, try to render it and
test the rendering; a failed rendering skips only the data check (the bare
`except: pass` at line 76). -/
def valueChecks (path term : String) (cs : Bool) (v : RegValue) : List MatchRecord :=
  (if matchEval v.name term cs then [⟨path, .VALUE_NAME, v.name⟩] else [])
    ++ (match v.data with
        | none => []
        | some none => []
        | some (some s) =>
            if matchEval s term cs then [⟨path, .VALUE_DATA, v.name ++ " = " ++ s⟩]
            else [])

/-- The value-enumeration loop (`src/enum.py` lines 54-78): check each value
`winreg.EnumValue` yields, in index order. The loop's terminating exception is
handled at the call site in `scanNode`. -/
def valuesScan (path term : String) (cs : Bool) : List RegValue → List MatchRecord
  | [] => []
  | v :: rest => valueChecks path term cs v ++ valuesScan path term cs rest

mutual

/-- `scan_registry_key` (`src/enum.py` lines 25-114) up to, but not including,
its outermost exception handlers: the returned pair is the accumulated
`results` list together with the exception, if any, that escapes to those
handlers. A failed open contributes no results and hands its exception to the
outer handlers; after a successful open the key name is tested, the values are
scanned (the enumeration's terminating exception is absorbed by
`except OSError: break` when it is an `OSError` and by the surrounding
`except Exception: pass` otherwise, with identical effect), the children are
scanned the same way, and the `winreg.CloseKey` outcome escapes to the outer
handlers with the accumulated results intact. -/
def scanNode : RegNode → String → String → Bool → List MatchRecord × Option PyExc
  | .mk openRes vs valTail children childTail closeExc, path, term, cs =>
    match openRes with
    | some e => ([], some e)
    | none =>
      let keyName := keyNameOf path
      let selfM := if matchEval keyName term cs then [⟨path, .KEY_NAME, keyName⟩] else []
      let valM := if valTail.isOSError then valuesScan path term cs vs
                  else valuesScan path term cs vs
      let childM := if childTail.isOSError then childLoop children path term cs
                    else childLoop children path term cs
      (selfM ++ valM ++ childM, closeExc)
termination_by structural n => n

/-- The subkey-enumeration loop (`src/enum.py` lines 79-100): for each child
name `winreg.EnumKey` yields, compose the child path and recursively scan
(`results.extend(subkey_results)`). -/
def childLoop : List (String × RegNode) → String → String → Bool → List MatchRecord
  | [], _, _, _ => []
  | (nm, c) :: rest, path, term, cs =>
      (scanNode c (childPathOf path nm) term cs).1 ++ childLoop rest path term cs
termination_by structural l => l

end

/-- `scan_registry_key` itself: its outermost handlers
(`except PermissionError / FileNotFoundError / Exception: pass`) discard the
escaped exception and `return results`. -/
def scan (n : RegNode) (path term : String) (cs : Bool) : List MatchRecord :=
  (scanNode n path term cs).1

/-- The root-coordinator loop in `main` (`src/enum.py` lines 139-146): scan
each selected root with the empty path and tag every record with the root's
name. -/
def scanAll (roots : List (String × RegNode)) (term : String) (cs : Bool) :
    List (String × MatchRecord) :=
  match roots with
  | [] => []
  | (nm, n) :: rest =>
      (scan n "" term cs).map (fun m => (nm, m)) ++ scanAll rest term cs

/-! ### Basic lemmas about the scanner -/

theorem strContains_iff (s t : String) :
    strContains s t = true ↔ t.data <:+: s.data := by
  simp [strContains]

theorem matchEval_empty (s : String) (cs : Bool) : matchEval s "" cs = true := by
  simp [matchEval, strContains_iff, foldCase, toLowerStr]

theorem matchEval_self (s : String) (cs : Bool) : matchEval s s cs = true := by
  simp [matchEval, strContains_iff]

theorem valuesScan_append (path term : String) (cs : Bool) (l₁ l₂ : List RegValue) :
    valuesScan path term cs (l₁ ++ l₂)
      = valuesScan path term cs l₁ ++ valuesScan path term cs l₂ := by
  induction l₁ with
  | nil => simp [valuesScan]
  | cons v rest ih => simp [valuesScan, ih]

theorem childLoop_append (path term : String) (cs : Bool)
    (l₁ l₂ : List (String × RegNode)) :
    childLoop (l₁ ++ l₂) path term cs
      = childLoop l₁ path term cs ++ childLoop l₂ path term cs := by
  induction l₁ with
  | nil => simp [childLoop]
  | cons c rest ih =>
      obtain ⟨nm, n⟩ := c
      simp [childLoop, ih]

/-- Unfolding of `scan` on a key whose open succeeds. -/
theorem scan_open_none (vs : List RegValue) (vt : PyExc)
    (chl : List (String × RegNode)) (ct : PyExc) (ce : Option PyExc)
    (path term : String) (cs : Bool) :
    scan (.mk none vs vt chl ct ce) path term cs
      = (if matchEval (keyNameOf path) term cs
          then [⟨path, .KEY_NAME, keyNameOf path⟩] else [])
        ++ valuesScan path term cs vs ++ childLoop chl path term cs := by
  simp [scan, scanNode]

/-- Unfolding of `scan` on a key whose open fails. -/
theorem scan_open_some (e : PyExc) (vs : List RegValue) (vt : PyExc)
    (chl : List (String × RegNode)) (ct : PyExc) (ce : Option PyExc)
    (path term : String) (cs : Bool) :
    scan (.mk (some e) vs vt chl ct ce) path term cs = [] := by
  simp [scan, scanNode]

theorem childLoop_cons (nm : String) (c : RegNode)
    (rest : List (String × RegNode)) (path term : String) (cs : Bool) :
    childLoop ((nm, c) :: rest) path term cs
      = scan c (childPathOf path nm) term cs ++ childLoop rest path term cs := by
  simp [childLoop, scan]

/-! ### Claim C2: the match test -/

/-- Claim C2: for all strings `s`, `t` and flag `cs`, the match test used on
key names, value names and stringified value data holds iff `t` (lowercased
when `cs` is false) is a substring of `s` (lowercased when `cs` is false); in
particular the empty term matches every candidate and every string matches
itself. -/
theorem matchEval_spec (s t : String) (cs : Bool) :
    (matchEval s t cs = true
      ↔ (foldCase cs t).data <:+: (foldCase cs s).data)
    ∧ matchEval s "" cs = true
    ∧ matchEval s s cs = true :=
  ⟨strContains_iff _ _, matchEval_empty s cs, matchEval_self s cs⟩

/-! ### Claim C9: the `.dll` scenario -/

/-- The `Settings` subkey of the C9 scenario: no values, no children. -/
def scenarioSettings : RegNode := .mk none [] .noMoreItems [] .noMoreItems none

/-- The `App` key of the C9 scenario: one value `Default = C:\app.dll` and the
child key `Settings`. -/
def scenarioApp : RegNode :=
  .mk none [⟨"Default", some (some "C:\\app.dll")⟩] .noMoreItems
    [("Settings", scenarioSettings)] .noMoreItems none

/-- The root of the C9 scenario: its only child is `App`. -/
def scenarioRoot : RegNode :=
  .mk none [] .noMoreItems [("App", scenarioApp)] .noMoreItems none

/-- Claim C9: a case-insensitive scan of the scenario store for `.dll` from
the root `R` yields exactly one record, the `VALUE_DATA` hit
`Default = C:\app.dll` at path `App`, and the `Settings` subtree contributes
no record. -/
theorem scenario_dll_scan :
    scanAll [("R", scenarioRoot)] ".dll" false
        = [("R", ⟨"App", .VALUE_DATA, "Default = C:\\app.dll"⟩)]
      ∧ scan scenarioSettings "App\\Settings" ".dll" false = [] := by
  constructor <;> decide

/-! ### Claim C4: a failed open contributes nothing and spares its siblings -/

/-- Claim C4: opening a key can fail with any exception — permission denied,
not found, or anything else; the scan then returns the empty sequence for that
subtree, and a parent whose child list contains such a subtree returns exactly
what it would return were the failing subtree absent. -/
theorem scan_openFail_isolated (e : PyExc) (bvs : List RegValue) (bvt : PyExc)
    (bcs : List (String × RegNode)) (bct : PyExc) (bce : Option PyExc)
    (o : Option PyExc) (vs : List RegValue) (vt : PyExc)
    (cs1 cs2 : List (String × RegNode)) (nm : String) (ct : PyExc)
    (ce : Option PyExc) (path term : String) (cs : Bool) :
    scan (.mk (some e) bvs bvt bcs bct bce) path term cs = []
    ∧ scan (.mk o vs vt
          (cs1 ++ (nm, .mk (some e) bvs bvt bcs bct bce) :: cs2) ct ce)
          path term cs
        = scan (.mk o vs vt (cs1 ++ cs2) ct ce) path term cs := by
  refine ⟨scan_open_some .., ?_⟩
  cases o with
  | some e' => simp [scan_open_some]
  | none =>
      rw [scan_open_none, scan_open_none, childLoop_append, childLoop_append,
        childLoop_cons, scan_open_some]
      simp

/-! ### Claim C7: unrenderable value data skips only that data check -/

/-- Claim C7: when `str(value_data)` fails for one value, only that value's
data check is skipped: its name check still runs and still emits its record,
the remaining values are still enumerated and checked, and the subkeys are
still scanned. The scan of a key holding such a value is the same as if the
value's data were absent, and decomposes around the value's name check. -/
theorem scan_unrenderable_data (nm : String) (vs1 vs2 : List RegValue)
    (vt : PyExc) (chl : List (String × RegNode)) (ct : PyExc)
    (ce : Option PyExc) (path term : String) (cs : Bool) :
    scan (.mk none (vs1 ++ ⟨nm, some none⟩ :: vs2) vt chl ct ce) path term cs
      = scan (.mk none (vs1 ++ ⟨nm, none⟩ :: vs2) vt chl ct ce) path term cs
    ∧ scan (.mk none (vs1 ++ ⟨nm, some none⟩ :: vs2) vt chl ct ce) path term cs
      = (if matchEval (keyNameOf path) term cs
           then [⟨path, .KEY_NAME, keyNameOf path⟩] else [])
        ++ (valuesScan path term cs vs1
            ++ ((if matchEval nm term cs then [⟨path, .VALUE_NAME, nm⟩] else [])
                ++ (valuesScan path term cs vs2 ++ childLoop chl path term cs))) := by
  constructor
  · rw [scan_open_none, scan_open_none, valuesScan_append, valuesScan_append]
    simp [valuesScan, valueChecks]
  · rw [scan_open_none, valuesScan_append]
    simp [valuesScan, valueChecks]

/-! ### Claim C6: a child-enumeration error keeps what was already gathered -/

/-- Claim C6: when `winreg.EnumKey` fails with an exception other than the
exhaustion signal after `k` children have been discovered (the store's
discovered-children list is `chl.take k` with terminating exception `e`), no
further child is discovered, yet the scan still returns the key's own match,
its value matches and the complete recursive results of the `k` discovered
children: it coincides with the scan of the same key whose enumeration is
exhausted at that same point, and decomposes into the self, value and
discovered-children parts. -/
theorem scan_childEnumError (vs : List RegValue) (vt : PyExc)
    (chl : List (String × RegNode)) (k : Nat) (e : PyExc) (ce : Option PyExc)
    (path term : String) (cs : Bool) (_he : e ≠ PyExc.noMoreItems) :
    scan (.mk none vs vt (chl.take k) e ce) path term cs
      = scan (.mk none vs vt (chl.take k) .noMoreItems ce) path term cs
    ∧ scan (.mk none vs vt (chl.take k) e ce) path term cs
      = (if matchEval (keyNameOf path) term cs
           then [⟨path, .KEY_NAME, keyNameOf path⟩] else [])
        ++ valuesScan path term cs vs ++ childLoop (chl.take k) path term cs :=
  ⟨by rw [scan_open_none, scan_open_none], scan_open_none ..⟩

/-- A key on which every store operation behaves normally and which holds no
value and no child. -/
def leafKey : RegNode := .mk none [] .noMoreItems [] .noMoreItems none

/-- Witness for `scan_childEnumError`: five children, enumeration fails with a
generic `OSError` after the first two; the two discovered children's full
results (here their `KEY_NAME` hits for the empty term) are returned. -/
theorem scan_childEnumError_witness :
    scan (.mk none [] .noMoreItems
        (([("c0", leafKey), ("c1", leafKey), ("c2", leafKey), ("c3", leafKey),
           ("c4", leafKey)].take 2)) .osOther none) "k" "" false
      = scan (.mk none [] .noMoreItems
          (([("c0", leafKey), ("c1", leafKey), ("c2", leafKey), ("c3", leafKey),
             ("c4", leafKey)].take 2)) .noMoreItems none) "k" "" false
    ∧ scan (.mk none [] .noMoreItems
        (([("c0", leafKey), ("c1", leafKey), ("c2", leafKey), ("c3", leafKey),
           ("c4", leafKey)].take 2)) .osOther none) "k" "" false
      = (if matchEval (keyNameOf "k") "" false
           then [⟨"k", .KEY_NAME, keyNameOf "k"⟩] else [])
        ++ valuesScan "k" "" false []
        ++ childLoop ([("c0", leafKey), ("c1", leafKey), ("c2", leafKey),
            ("c3", leafKey), ("c4", leafKey)].take 2) "k" "" false :=
  scan_childEnumError [] .noMoreItems
    [("c0", leafKey), ("c1", leafKey), ("c2", leafKey), ("c3", leafKey),
     ("c4", leafKey)] 2 .osOther none "k" "" false (by decide)

/-! ### Claim C10: the root key's own name is the empty string -/

/-- A key whose open fails with a permission error; everything else about it
is normal and empty. -/
def deniedKey : RegNode :=
  .mk (some .permissionDenied) [] .noMoreItems [] .noMoreItems none

/-- Claim C10 as stated is false on the code: it asserts that a top-level call
emits the empty-path `KEY_NAME` record exactly when the case-folded search
term is empty, for every store; but when opening the root fails the scan
returns no record at all even though the empty term is empty. -/
theorem root_selfMatch_cex :
    ¬(((⟨"", .KEY_NAME, ""⟩ : MatchRecord) ∈ scan deniedKey "" "" false)
        ↔ foldCase false "" = "") := by
  decide

/-- The empty candidate contains the term exactly when the term is empty. -/
theorem matchEval_empty_candidate (term : String) (cs : Bool) :
    matchEval "" term cs = true ↔ term = "" := by
  cases cs <;>
    simp [matchEval, foldCase, strContains_iff, toLowerStr, String.ext_iff]

/-- Claim C10 (amended: the root key must open successfully; a root whose open
fails emits nothing, per the open-failure policy): a top-level call with the
empty path treats the root's own name as the empty string, and its result
starts with the `KEY_NAME` record with empty path and empty payload exactly
when the search term is empty — in particular a non-empty term never matches
the root's own name, case-folded or not. -/
theorem root_selfMatch (vs : List RegValue) (vt : PyExc)
    (chl : List (String × RegNode)) (ct : PyExc) (ce : Option PyExc)
    (term : String) (cs : Bool) :
    scan (.mk none vs vt chl ct ce) "" term cs
      = (if term = "" then [⟨"", .KEY_NAME, ""⟩] else [])
        ++ valuesScan "" term cs vs ++ childLoop chl "" term cs := by
  rw [scan_open_none]
  have hname : keyNameOf "" = "" := by decide
  rw [hname]
  by_cases h : term = ""
  · subst h
    simp [matchEval_empty]
  · simp only [if_neg h]
    have : matchEval "" term cs = false := by
      cases hmc : matchEval "" term cs
      · rfl
      · exact absurd ((matchEval_empty_candidate term cs).1 hmc) h
    simp [this]

/-! ### Claim C3: no store behaviour makes the scan fail -/

/-- Claim C3: whatever the store does — open failures, value- or
child-enumeration failures, close failures, unrenderable data — the scanner
always returns normally with a (possibly empty) record list. The only
exceptions that ever reach `scan_registry_key`'s outermost handlers are the
open failure (with no records accumulated) or the close failure (with all
records intact); those handlers discard them and return the accumulated list,
and the root coordinator therefore always returns the concatenation of the
per-root results. -/
theorem scan_never_fails (o : Option PyExc) (vs : List RegValue) (vt : PyExc)
    (chl : List (String × RegNode)) (ct : PyExc) (ce : Option PyExc)
    (path term : String) (cs : Bool) (roots : List (String × RegNode)) :
    (scanNode (.mk o vs vt chl ct ce) path term cs).2
        = (match o with | some e => some e | none => ce)
    ∧ scan (.mk o vs vt chl ct ce) path term cs
        = (scanNode (.mk o vs vt chl ct ce) path term cs).1
    ∧ scanAll roots term cs
        = (roots.map (fun r => (scan r.2 "" term cs).map (fun m => (r.1, m)))).flatten := by
  refine ⟨by cases o <;> rfl, rfl, ?_⟩
  induction roots with
  | nil => rfl
  | cons r rest ih =>
      obtain ⟨nm, n⟩ := r
      simp [scanAll, ih]

/-! ### Claim C1: the ordering of the result sequence -/

/-- The result sequence claim C1 asserts for a key, written from the claim's
words: the key's own `KEY_NAME` match (if its name matches) first, then for
each value in increasing index order its `VALUE_NAME` match (if any)
immediately followed by its `VALUE_DATA` match (if any), then the complete
recursive result of each child in increasing index order. -/
def claimedOrder (n : RegNode) (path term : String) (cs : Bool) : List MatchRecord :=
  match n with
  | .mk _ vs _ children _ _ =>
      (if matchEval (keyNameOf path) term cs
         then [⟨path, .KEY_NAME, keyNameOf path⟩] else [])
      ++ (vs.map (fun v =>
            (if matchEval v.name term cs then [⟨path, .VALUE_NAME, v.name⟩] else [])
            ++ (match v.data with
                | some (some s) =>
                    if matchEval s term cs
                      then [⟨path, .VALUE_DATA, v.name ++ " = " ++ s⟩] else []
                | _ => []))).flatten
      ++ (children.map (fun c => scan c.2 (childPathOf path c.1) term cs)).flatten

/-- Claim C1 as stated is false on the code: it asserts the ordered result
shape for every store, but a key whose open fails returns the empty sequence
even when its name matches the term. -/
theorem scan_order_cex : scan deniedKey "X" "" false ≠ claimedOrder deniedKey "X" "" false := by
  decide

theorem valuesScan_eq_join (path term : String) (cs : Bool) (vs : List RegValue) :
    valuesScan path term cs vs = (vs.map (fun v => valueChecks path term cs v)).flatten := by
  induction vs with
  | nil => rfl
  | cons v rest ih => simp [valuesScan, ih]

theorem childLoop_eq_join (path term : String) (cs : Bool)
    (chl : List (String × RegNode)) :
    childLoop chl path term cs
      = (chl.map (fun c => scan c.2 (childPathOf path c.1) term cs)).flatten := by
  induction chl with
  | nil => rfl
  | cons c rest ih =>
      obtain ⟨nm, n⟩ := c
      simp [childLoop_cons, ih]

theorem valueChecks_eq_claimed (path term : String) (cs : Bool) (v : RegValue) :
    valueChecks path term cs v
      = (if matchEval v.name term cs then [⟨path, .VALUE_NAME, v.name⟩] else [])
        ++ (match v.data with
            | some (some s) =>
                if matchEval s term cs
                  then [⟨path, .VALUE_DATA, v.name ++ " = " ++ s⟩] else []
            | _ => []) := by
  obtain ⟨nm, d⟩ := v
  rcases d with _ | _ | s <;> rfl

/-- Claim C1 (amended: a key whose open fails contributes the empty sequence
in place of the described shape, per the open-failure policy): for every store
and every call, the result is the key's own `KEY_NAME` match (if its name
matches) first, then for each value in increasing index order the `VALUE_NAME`
match (if any) immediately followed by the `VALUE_DATA` match (if any) for
that value, then the complete recursive result of each child in increasing
index order — a parent's own matches precede all its descendants' matches. -/
theorem scan_order (n : RegNode) (path term : String) (cs : Bool) :
    scan n path term cs
      = (match n.openRes with
         | some _ => []
         | none => claimedOrder n path term cs) := by
  cases n with
  | mk o vs vt chl ct ce =>
      cases o with
      | some e => simp [RegNode.openRes, scan_open_some]
      | none =>
          simp only [RegNode.openRes]
          rw [scan_open_none, claimedOrder, valuesScan_eq_join, childLoop_eq_join]
          simp only [valueChecks_eq_claimed]

/-! ### Claim C5: scoped handle acquisition and release -/

/-- A handle event: `winreg.OpenKey` returning a handle for `path`
(`src/enum.py` line 43), or `winreg.CloseKey` being invoked on that handle
(line 102). -/
inductive HEvent where
  | opened (path : String)
  | closed (path : String)
deriving DecidableEq

mutual

/-- The handle events of one `scan_registry_key` call, in order: none when the
open fails; otherwise the open of this key, then the events of the recursive
child scans (value enumeration touches no handle of its own), then the close
of this key. `winreg.CloseKey(key)` is reached on every path on which the open
succeeded, because every failure of the value and subkey sections is absorbed
before it (`src/enum.py` lines 54-102), and a close failure is absorbed by the
outermost handlers after the handle was already passed to `CloseKey`. -/
def scanEvents : RegNode → String → List HEvent
  | .mk openRes _ _ children _ _, path =>
    match openRes with
    | some _ => []
    | none => HEvent.opened path :: (childEvents children path ++ [HEvent.closed path])
termination_by structural n => n

/-- The handle events of the subkey loop, child by child in index order. -/
def childEvents : List (String × RegNode) → String → List HEvent
  | [], _ => []
  | (nm, c) :: rest, path => scanEvents c (childPathOf path nm) ++ childEvents rest path
termination_by structural l => l

end

/-- Replay a handle-event trace over the collection of handles currently open:
an open adds its handle, a close removes it. -/
def runH : List HEvent → List String → List String
  | [], hs => hs
  | .opened p :: rest, hs => runH rest (p :: hs)
  | .closed p :: rest, hs => runH rest (hs.erase p)

/-- The paths opened in a trace, in order. -/
def opensOf (l : List HEvent) : List String :=
  l.filterMap (fun e => match e with | .opened p => some p | _ => none)

/-- The paths closed in a trace, in order. -/
def closesOf (l : List HEvent) : List String :=
  l.filterMap (fun e => match e with | .closed p => some p | _ => none)

theorem runH_append (l₁ l₂ : List HEvent) (hs : List String) :
    runH (l₁ ++ l₂) hs = runH l₂ (runH l₁ hs) := by
  induction l₁ generalizing hs with
  | nil => rfl
  | cons e rest ih => cases e <;> simp [runH, ih]

mutual

theorem runH_scanEvents : ∀ (n : RegNode) (path : String) (hs : List String),
    runH (scanEvents n path) hs = hs
  | .mk o vs vt chl ct ce, path, hs => by
    cases o with
    | some e => rfl
    | none =>
        have ih : ∀ hs', runH (childEvents chl path) hs' = hs' :=
          fun hs' => runH_childEvents chl path hs'
        simp [scanEvents, runH, runH_append, ih]
termination_by structural n => n

theorem runH_childEvents : ∀ (chl : List (String × RegNode)) (path : String)
    (hs : List String), runH (childEvents chl path) hs = hs
  | [], _, _ => rfl
  | (nm, c) :: rest, path, hs => by
    have ih₁ := runH_scanEvents c (childPathOf path nm) hs
    have ih₂ := runH_childEvents rest path hs
    simp [childEvents, runH_append, ih₁, ih₂]
termination_by structural l => l

end

mutual

theorem opens_perm_closes_scan : ∀ (n : RegNode) (path : String),
    (opensOf (scanEvents n path)).Perm (closesOf (scanEvents n path))
  | .mk o vs vt chl ct ce, path => by
    cases o with
    | some e => exact .nil
    | none =>
        have ih := opens_perm_closes_children chl path
        simp only [scanEvents, opensOf, closesOf, List.filterMap_append,
          List.filterMap_cons, List.filterMap_nil, List.append_nil] at *
        exact (ih.cons path).trans (List.perm_append_singleton path _).symm
termination_by structural n => n

theorem opens_perm_closes_children : ∀ (chl : List (String × RegNode))
    (path : String),
    (opensOf (childEvents chl path)).Perm (closesOf (childEvents chl path))
  | [], _ => .nil
  | (nm, c) :: rest, path => by
    have ih₁ := opens_perm_closes_scan c (childPathOf path nm)
    have ih₂ := opens_perm_closes_children rest path
    simp only [childEvents, opensOf, closesOf, List.filterMap_append] at *
    exact ih₁.append ih₂
termination_by structural l => l

end

/-- Claim C5: handles are scoped resources. Replaying the handle trace of any
call over any collection of open handles leaves that collection unchanged; the
multiset of opened paths equals the multiset of closed paths, so every handle
the call opens is also released by it; and on a key whose open succeeds the
trace is exactly the open of that key, then the children's traces, then —
last, before the call returns — the close of that same key, so a handle never
outlives its call nor is shared with sibling calls. -/
theorem scan_handle_scoped (o : Option PyExc) (vs : List RegValue) (vt : PyExc)
    (chl : List (String × RegNode)) (ct : PyExc) (ce : Option PyExc)
    (path : String) (hs : List String) :
    runH (scanEvents (.mk o vs vt chl ct ce) path) hs = hs
    ∧ (opensOf (scanEvents (.mk o vs vt chl ct ce) path)).Perm
        (closesOf (scanEvents (.mk o vs vt chl ct ce) path))
    ∧ scanEvents (.mk none vs vt chl ct ce) path
        = .opened path :: (childEvents chl path ++ [.closed path]) :=
  ⟨runH_scanEvents _ path hs, opens_perm_closes_scan _ path, rfl⟩

/-! ### Claim C8: the empty search term matches everything reachable -/

mutual

/-- The paths of all keys of the store rooted at a key scanned under `path`. -/
def keyPaths : RegNode → String → List String
  | .mk _ _ _ chl _ _, path => path :: keyPathsList chl path
termination_by structural n => n

/-- The paths of all keys in a child list. -/
def keyPathsList : List (String × RegNode) → String → List String
  | [], _ => []
  | (nm, c) :: rest, path => keyPaths c (childPathOf path nm) ++ keyPathsList rest path
termination_by structural l => l

end

mutual

/-- All values of the store rooted at a key scanned under `path`, each paired
with the path of the key holding it. -/
def valueEntries : RegNode → String → List (String × RegValue)
  | .mk _ vs _ chl _ _, path => vs.map (fun v => (path, v)) ++ valueEntriesList chl path
termination_by structural n => n

/-- All values in a child list, each paired with its key's path. -/
def valueEntriesList : List (String × RegNode) → String → List (String × RegValue)
  | [], _ => []
  | (nm, c) :: rest, path =>
      valueEntries c (childPathOf path nm) ++ valueEntriesList rest path
termination_by structural l => l

end

mutual

/-- Whether every key of the store opens successfully. -/
def allOpen : RegNode → Bool
  | .mk o _ _ chl _ _ => o.isNone && allOpenList chl
termination_by structural n => n

/-- Whether every key in a child list's subtrees opens successfully. -/
def allOpenList : List (String × RegNode) → Bool
  | [] => true
  | (_, c) :: rest => allOpen c && allOpenList rest
termination_by structural l => l

end

/-- Claim C8 as stated is false on the code: it asks for a `KEY_NAME` record
for every key of every store, but a store whose root cannot be opened has a
key and yields no record at all. -/
theorem scan_emptyTerm_cex :
    ¬(∀ q ∈ keyPaths deniedKey "K",
        (⟨q, .KEY_NAME, keyNameOf q⟩ : MatchRecord) ∈ scan deniedKey "K" "" false) := by
  decide

theorem mem_valuesScan_name (path : String) (b : Bool) (vs : List RegValue)
    (v : RegValue) (hv : v ∈ vs) :
    (⟨path, .VALUE_NAME, v.name⟩ : MatchRecord) ∈ valuesScan path "" b vs := by
  induction vs with
  | nil => cases hv
  | cons w rest ih =>
      rcases List.mem_cons.1 hv with h | h
      · subst h
        simp [valuesScan, valueChecks, matchEval_empty]
      · simp [valuesScan, ih h]

theorem mem_valuesScan_data (path : String) (b : Bool) (vs : List RegValue)
    (v : RegValue) (s : String) (hv : v ∈ vs) (hd : v.data = some (some s)) :
    (⟨path, .VALUE_DATA, v.name ++ " = " ++ s⟩ : MatchRecord)
      ∈ valuesScan path "" b vs := by
  induction vs with
  | nil => cases hv
  | cons w rest ih =>
      rcases List.mem_cons.1 hv with h | h
      · subst h
        simp [valuesScan, valueChecks, hd, matchEval_empty]
      · simp [valuesScan, ih h]

mutual

theorem emptyTerm_node : ∀ (n : RegNode) (path : String) (b : Bool),
    allOpen n = true →
      (∀ q ∈ keyPaths n path,
        (⟨q, .KEY_NAME, keyNameOf q⟩ : MatchRecord) ∈ scan n path "" b)
      ∧ (∀ e ∈ valueEntries n path,
          (⟨e.1, .VALUE_NAME, e.2.name⟩ : MatchRecord) ∈ scan n path "" b)
      ∧ (∀ e ∈ valueEntries n path, ∀ s, e.2.data = some (some s) →
          (⟨e.1, .VALUE_DATA, e.2.name ++ " = " ++ s⟩ : MatchRecord) ∈ scan n path "" b)
  | .mk o vs vt chl ct ce, path, b => by
    intro hall
    rw [allOpen, Bool.and_eq_true] at hall
    obtain ⟨ho, hl⟩ := hall
    cases o with
    | some e => simp at ho
    | none =>
        have ihl := emptyTerm_list chl path b hl
        rw [scan_open_none, if_pos (matchEval_empty _ b)]
        refine ⟨?_, ?_, ?_⟩
        · intro q hq
          rw [keyPaths] at hq
          rcases List.mem_cons.1 hq with h | h
          · subst h
            simp
          · simp [List.mem_append, (ihl.1 q h)]
        · intro e he
          rw [valueEntries] at he
          rcases List.mem_append.1 he with h | h
          · rcases List.mem_map.1 h with ⟨v, hv, hev⟩
            subst hev
            simp [List.mem_append, mem_valuesScan_name path b vs v hv]
          · simp [List.mem_append, ihl.2.1 e h]
        · intro e he s hs
          rw [valueEntries] at he
          rcases List.mem_append.1 he with h | h
          · rcases List.mem_map.1 h with ⟨v, hv, hev⟩
            subst hev
            simp [List.mem_append, mem_valuesScan_data path b vs v s hv hs]
          · simp [List.mem_append, ihl.2.2 e h s hs]
termination_by structural n => n

theorem emptyTerm_list : ∀ (chl : List (String × RegNode)) (path : String)
    (b : Bool), allOpenList chl = true →
      (∀ q ∈ keyPathsList chl path,
        (⟨q, .KEY_NAME, keyNameOf q⟩ : MatchRecord) ∈ childLoop chl path "" b)
      ∧ (∀ e ∈ valueEntriesList chl path,
          (⟨e.1, .VALUE_NAME, e.2.name⟩ : MatchRecord) ∈ childLoop chl path "" b)
      ∧ (∀ e ∈ valueEntriesList chl path, ∀ s, e.2.data = some (some s) →
          (⟨e.1, .VALUE_DATA, e.2.name ++ " = " ++ s⟩ : MatchRecord)
            ∈ childLoop chl path "" b)
  | [], path, b => by
      intro _
      refine ⟨?_, ?_, ?_⟩ <;> intro q hq <;> simp [keyPathsList, valueEntriesList] at hq
  | (nm, c) :: rest, path, b => by
      intro hall
      rw [allOpenList, Bool.and_eq_true] at hall
      obtain ⟨hc, hrest⟩ := hall
      have ihc := emptyTerm_node c (childPathOf path nm) b hc
      have ihr := emptyTerm_list rest path b hrest
      rw [childLoop_cons]
      refine ⟨?_, ?_, ?_⟩
      · intro q hq
        rw [keyPathsList] at hq
        rcases List.mem_append.1 hq with h | h
        · simp [List.mem_append, ihc.1 q h]
        · simp [List.mem_append, ihr.1 q h]
      · intro e he
        rw [valueEntriesList] at he
        rcases List.mem_append.1 he with h | h
        · simp [List.mem_append, ihc.2.1 e h]
        · simp [List.mem_append, ihr.2.1 e h]
      · intro e he s hs
        rw [valueEntriesList] at he
        rcases List.mem_append.1 he with h | h
        · simp [List.mem_append, ihc.2.2 e h s hs]
        · simp [List.mem_append, ihr.2.2 e h s hs]
termination_by structural l => l

end

/-- Claim C8 (amended: every key of the store must open successfully; an
unopenable subtree contributes nothing, per the open-failure policy, and a
value only gets a `VALUE_DATA` record when its data is present and
renderable): scanning with the empty search term emits a `KEY_NAME` record for
every key, a `VALUE_NAME` record for every value, and a `VALUE_DATA` record
for every value whose data is present and renderable. -/
theorem scan_emptyTerm_total (n : RegNode) (path : String) (b : Bool)
    (h : allOpen n = true) :
    (∀ q ∈ keyPaths n path,
      (⟨q, .KEY_NAME, keyNameOf q⟩ : MatchRecord) ∈ scan n path "" b)
    ∧ (∀ e ∈ valueEntries n path,
        (⟨e.1, .VALUE_NAME, e.2.name⟩ : MatchRecord) ∈ scan n path "" b)
    ∧ (∀ e ∈ valueEntries n path, ∀ s, e.2.data = some (some s) →
        (⟨e.1, .VALUE_DATA, e.2.name ++ " = " ++ s⟩ : MatchRecord) ∈ scan n path "" b) :=
  emptyTerm_node n path b h

/-- Witness for `scan_emptyTerm_total`, on the scenario store: every key path,
every value name and every renderable datum of the store receives its record
under the empty term. -/
theorem scan_emptyTerm_total_witness :
    allOpen scenarioRoot = true
    ∧ ((∀ q ∈ keyPaths scenarioRoot "",
          (⟨q, .KEY_NAME, keyNameOf q⟩ : MatchRecord) ∈ scan scenarioRoot "" "" false)
        ∧ (∀ e ∈ valueEntries scenarioRoot "",
            (⟨e.1, .VALUE_NAME, e.2.name⟩ : MatchRecord) ∈ scan scenarioRoot "" "" false)
        ∧ (∀ e ∈ valueEntries scenarioRoot "", ∀ s, e.2.data = some (some s) →
            (⟨e.1, .VALUE_DATA, e.2.name ++ " = " ++ s⟩ : MatchRecord)
              ∈ scan scenarioRoot "" "" false)) :=
  ⟨by decide, scan_emptyTerm_total scenarioRoot "" false (by decide)⟩
